import Mathlib

/-!
Verification of the file-consolidator core: tree scanning/filtering
(`UIManager.populate_file_tree`), selection collection
(`FileConsolidatorApp._collect_included_files`), and the merge pipeline
(`FileProcessor.merge_documents` and the four merge strategies).

The Python source is shallowly embedded: filesystem trees are inductive
values, the mutable Tk tree widgets become pure tree values built in the
same insertion order, worker-thread mutation of the error list becomes
explicit accumulation, and the cooperative cancellation flag becomes the
time at which the flag is first observed set (`Option Nat`).
-/

namespace FileConsolidator

/-! ## Glob matching: model of `fnmatch.fnmatch` as used by the scanner
(with POSIX `os.path.normcase`, which is the identity). `*`, `?` and
`[...]` classes with `!` negation and `lo-hi` ranges are supported; an
unmatched `[` is a literal, mirroring `fnmatch.translate`. -/

/-- Split a character-class body at its closing `]`:
returns (chars before the `]`, chars after it). -/
def findClose : List Char → Option (List Char × List Char)
  | [] => none
  | c :: rest =>
    if c = ']' then some ([], rest)
    else (findClose rest).map (fun ab => (c :: ab.1, ab.2))

/-- Strip an optional leading `!` (class negation marker). -/
def stripNeg (l : List Char) : Bool × List Char :=
  match l with
  | [] => (false, [])
  | c :: r => if c = '!' then (true, r) else (false, l)

/-- Split a class body into members and the rest of the pattern;
a `]` as the very first member char is a literal member. -/
def classSplit (body : List Char) : Option (List Char × List Char) :=
  match body with
  | [] => none
  | c :: r =>
    if c = ']' then (findClose r).map (fun ab => (']' :: ab.1, ab.2))
    else findClose body

/-- Parse the text right after a `[`: returns
(negated?, class member chars, rest of pattern after the `]`),
or `none` when there is no closing `]` (the `[` is then a literal). -/
def parseClass (l : List Char) : Option (Bool × List Char × List Char) :=
  (classSplit (stripNeg l).2).map (fun ab => ((stripNeg l).1, ab.1, ab.2))

/-- Does character `c` match the class member list? Members are either
single characters or `lo-hi` ranges; a trailing `-` is a literal. -/
def classMatches : List Char → Char → Bool
  | [], _ => false
  | [a], c => a == c
  | [a, b], c =>
    -- a two-char tail cannot form a range (the `-` would be trailing)
    a == c || b == c
  | a :: b :: d :: rest, c =>
    if b = '-' then (decide (a ≤ c) && decide (c ≤ d)) || classMatches rest c
    else a == c || classMatches (b :: d :: rest) c

/-- Glob matching with explicit fuel to keep the recursion structural.
Every recursive step strictly decreases `p.length + s.length` (the class
case consumes at least the `[` from the pattern and one name char), so
any fuel above that sum is never exhausted. -/
def globMatchFuel : Nat → List Char → List Char → Bool
  | 0, _, _ => false
  | Nat.succ n, p, s =>
    match p, s with
    | [], [] => true
    | [], _ :: _ => false
    | '*' :: ps, [] => globMatchFuel n ps []
    | '*' :: ps, c :: cs =>
      globMatchFuel n ps (c :: cs) || globMatchFuel n ('*' :: ps) cs
    | '?' :: _, [] => false
    | '?' :: ps, _ :: cs => globMatchFuel n ps cs
    | '[' :: ps, s =>
      match parseClass ps with
      | some (neg, stuff, rest) =>
        match s with
        | [] => false
        | c :: cs =>
          (if neg then !(classMatches stuff c) else classMatches stuff c) &&
            globMatchFuel n rest cs
      | none =>
        match s with
        | c :: cs => ('[' == c) && globMatchFuel n ps cs
        | [] => false
    | a :: ps, c :: cs => (a == c) && globMatchFuel n ps cs
    | _ :: _, [] => false

/-- Glob matching of a pattern against a name, shell semantics
(`*` any run, `?` one char, `[...]` class), as `fnmatch.translate`
compiles them. -/
def globMatch (p s : List Char) : Bool :=
  globMatchFuel (p.length + s.length + 1) p s

/-- Model of `fnmatch.fnmatch(name, pattern)` with identity `normcase`. -/
def fnmatchModel (name pattern : String) : Bool :=
  globMatch pattern.toList name.toList

/-- Model of `any(fnmatch.fnmatch(name, pat) for pat in pats)`. -/
def matchAny (name : String) (pats : List String) : Bool :=
  pats.any (fun pat => fnmatchModel name pat)

example : fnmatchModel "__pycache__" "__pycache__" = true := by decide
example : fnmatchModel "notes.pyc" "*.pyc" = true := by decide
example : fnmatchModel "notes.py" "*.pyc" = false := by decide
example : fnmatchModel "a.txt" "a.[st]xt" = true := by decide
example : fnmatchModel "b.txt" "[a-c].txt" = true := by decide
example : fnmatchModel "d.txt" "[!a-c].txt" = true := by decide
example : fnmatchModel "a.txt" "[a-c" = false := by decide

/-! ## Path helpers (POSIX `os.path` model). -/

/-- Model of `os.path.basename` on POSIX: text after the last `/`. -/
def basename (p : String) : String :=
  String.mk (p.toList.foldl (fun acc c => if c = '/' then [] else acc ++ [c]) [])

/-- Model of `str.lower()` (character-wise, ASCII-faithful). -/
def strToLower (s : String) : String :=
  String.mk (s.toList.map Char.toLower)

/-- Model of `str.endswith(suffix)`. -/
def strEndsWith (s suffixStr : String) : Bool :=
  suffixStr.toList.isSuffixOf s.toList

/-- Model of `os.path.join(root, *parts)` for nonempty relative parts. -/
def pathJoin (root : String) (parts : List String) : String :=
  parts.foldl (fun acc part => acc ++ "/" ++ part) root

/-- The extension component of `os.path.splitext(name)`: from the last
dot, except that leading dots of the name never start an extension. -/
def splitextExt (name : String) : String :=
  (findExtFrom
    (name.toList.drop
      ((name.toList.takeWhile (fun c => c = '.')).length))).getD ""
where
  findExtFrom : List Char → Option String
    | [] => none
    | c :: rest =>
      match findExtFrom rest with
      | some e => some e
      | none => if c = '.' then some (String.mk (c :: rest)) else none

example : splitextExt "a.py" = ".py" := by decide
example : splitextExt ".bashrc" = "" := by decide
example : splitextExt "archive.tar.gz" = ".gz" := by decide
example : splitextExt "README" = "" := by decide
example : basename "/r/proj" = "proj" := by decide
example : basename "a.pdf" = "a.pdf" := by decide

/-! ## Rule configuration and per-file classification
(`UIManager.populate_file_tree`, UIManager.py lines 319–363). -/

/-- The pattern lists and view flags that `populate_file_tree` reads:
session lists parsed from the two entry fields, global lists from the
config handler, the lowercased extension allow-list from the file-types
field, and the two view checkboxes. -/
structure ScanConfig where
  sessionFolderIgnores : List String
  sessionFileIgnores : List String
  globalFolderIgnores : List String
  globalFileIgnores : List String
  extensions : List String
  hideIgnored : Bool
  showIgnoredSeparately : Bool
deriving DecidableEq

/-- The allow-list `[ext.strip().lower() for ext in file_types.split(',')
if ext.strip()]` (line 326). -/
def parseExtensions (fileTypes : String) : List String :=
  (fileTypes.splitOn ",").filterMap (fun e =>
    let t := e.trim
    if t = "" then none else some (strToLower t))

/-- Folder pruning test (lines 337–338): a directory is dropped from the
walk when its name matches any session or global folder-ignore pattern. -/
def folderPruned (cfg : ScanConfig) (d : String) : Bool :=
  matchAny d cfg.sessionFolderIgnores || matchAny d cfg.globalFolderIgnores

/-- The `is_ext_match` test (line 352): lowercased name ends with some allowed
extension. -/
def isExtMatch (extensions : List String) (name : String) : Bool :=
  extensions.any (fun ext => strEndsWith (strToLower name) ext)

/-- The `is_ignored` test (line 355). -/
def isIgnoredFile (cfg : ScanConfig) (name : String) : Bool :=
  matchAny name cfg.globalFileIgnores ||
    matchAny name cfg.sessionFileIgnores ||
    !(isExtMatch cfg.extensions name)

/-- The four statuses a scanned file can be given. -/
inductive FileStatus where
  | included
  | ignoredSession
  | ignoredGlobal
  | ignoredType
deriving DecidableEq

/-- File status assignment (lines 360–363): start `Included`, then the
first matching rule of session-ignore, global-ignore, type-mismatch
overrides it. -/
def fileStatus (cfg : ScanConfig) (name : String) : FileStatus :=
  if matchAny name cfg.sessionFileIgnores then .ignoredSession
  else if matchAny name cfg.globalFileIgnores then .ignoredGlobal
  else if !(isExtMatch cfg.extensions name) then .ignoredType
  else .included

/-- The status text shown in the tree's Status column. -/
def statusText : FileStatus → String
  | .included => "Included"
  | .ignoredSession => "Ignored (Session)"
  | .ignoredGlobal => "Ignored (Global)"
  | .ignoredType => "Ignored (Type)"

/-! ## Filesystem trees and the scan (`populate_file_tree`,
lines 330–381).  `FSEntries` is one directory's listing in
`os.listdir` order; `os.walk(topdown=True)` reads it, splits it into
`dirnames`/`filenames`, prunes `dirnames` in place, inserts folder
nodes then file nodes under the directory's node, and recurses. -/

mutual

inductive FSEntry where
  | file (name : String)
  | dir (name : String) (children : FSEntries)

inductive FSEntries where
  | nil
  | cons (head : FSEntry) (tail : FSEntries)

end

mutual

/-- A Treeview item: display text, Status column, Type column,
children in insertion order (the Size column plays no role in any
claim and is omitted). -/
inductive TVNode where
  | node (text : String) (status : String) (vtype : String)
      (children : TVNodes)

inductive TVNodes where
  | nil
  | cons (head : TVNode) (tail : TVNodes)

end

def TVNodes.append : TVNodes → TVNodes → TVNodes
  | .nil, b => b
  | .cons h t, b => .cons h (t.append b)

/-- A file is skipped entirely (line 357) when Hide Ignored is on, the
file is ignored, and Separate Ignored is off. -/
def fileHidden (cfg : ScanConfig) (name : String) : Bool :=
  cfg.hideIgnored && isIgnoredFile cfg name && !cfg.showIgnoredSeparately

/-- A file goes to the ignored tree instead of the main tree
(lines 370–378) when Separate Ignored is on and the file is ignored. -/
def fileSeparated (cfg : ScanConfig) (name : String) : Bool :=
  cfg.showIgnoredSeparately && isIgnoredFile cfg name

/-- The main-tree file nodes of one directory's listing (lines 348–381):
classified file nodes in listing order, skipping hidden files and files
diverted to the ignored tree. -/
def buildFileNodes (cfg : ScanConfig) : FSEntries → TVNodes
  | .nil => .nil
  | .cons (.dir _ _) rest => buildFileNodes cfg rest
  | .cons (.file f) rest =>
    if fileHidden cfg f || fileSeparated cfg f then buildFileNodes cfg rest
    else
      .cons (.node f (statusText (fileStatus cfg f)) (splitextExt f) .nil)
        (buildFileNodes cfg rest)

/-- The folder nodes of one directory's listing: one `Folder` node per
non-pruned subdirectory, in listing order, each already carrying the
subtree the later walk iterations will insert under it
(lines 337–346). -/
def buildDirNodes (cfg : ScanConfig) : FSEntries → TVNodes
  | .nil => .nil
  | .cons (.file _) rest => buildDirNodes cfg rest
  | .cons (.dir d sub) rest =>
    if folderPruned cfg d then buildDirNodes cfg rest
    else
      .cons
        (.node d "" "Folder"
          ((buildDirNodes cfg sub).append (buildFileNodes cfg sub)))
        (buildDirNodes cfg rest)

/-- The children a directory's node ends up with: folder nodes first
(inserted during the directory's own walk iteration), then its file
nodes. -/
def buildChildren (cfg : ScanConfig) (es : FSEntries) : TVNodes :=
  (buildDirNodes cfg es).append (buildFileNodes cfg es)

/-- The whole main tree: one top-level node for the root folder with
text `os.path.basename(root_path)` and values `("", "", "Folder")`
(lines 330–332), holding the walk's output. -/
def populateTree (cfg : ScanConfig) (rootPath : String) (es : FSEntries) :
    TVNodes :=
  .cons (.node (basename rootPath) "" "Folder" (buildChildren cfg es)) .nil

/-- The items inserted into the ignored tree (lines 370–378), as their
root-relative paths: when Separate Ignored is on, every ignored file of
every non-pruned directory. -/
def ignoredDirItems (cfg : ScanConfig) : FSEntries → List (List String)
  | .nil => []
  | .cons (.file f) rest =>
    (if fileSeparated cfg f then [[f]] else []) ++ ignoredDirItems cfg rest
  | .cons (.dir d sub) rest =>
    (if folderPruned cfg d then []
     else (ignoredDirItems cfg sub).map (fun p => d :: p)) ++
      ignoredDirItems cfg rest

mutual

/-- Root-relative paths of every node of a tree (each node contributes
the path to itself). -/
def tvNodePaths : TVNode → List (List String)
  | .node text _ _ children =>
    [text] :: (tvForestPaths children).map (fun p => text :: p)

def tvForestPaths : TVNodes → List (List String)
  | .nil => []
  | .cons h t => tvNodePaths h ++ tvForestPaths t

end

mutual

/-- Root-relative paths of the `Folder` nodes only. -/
def tvNodeFolderPaths : TVNode → List (List String)
  | .node text _ vtype children =>
    (if vtype = "Folder" then [[text]] else []) ++
      (tvForestFolderPaths children).map (fun p => text :: p)

def tvForestFolderPaths : TVNodes → List (List String)
  | .nil => []
  | .cons h t => tvNodeFolderPaths h ++ tvForestFolderPaths t

end

/-! ## Selection collection (`FileConsolidatorApp._collect_included_files`,
main.py lines 119–136).  The Python walks parent links to rebuild
`path_parts`; here the ancestor texts are carried down the recursion,
which yields the same list.  `start_consolidation` (line 69) invokes it
on the top-level items, i.e. on the root node itself. -/

/-- One step of `_collect_included_files`: an item whose Status is
`Included` and whose Type is not `Folder` contributes
`os.path.join(root_folder, *path_parts)`; a `Folder` item is recursed
into; anything else is skipped. -/
def collectGo (root : String) (anc : List String) : TVNodes → List String
  | .nil => []
  | .cons (.node text status vtype children) rest =>
    if status = "Included" ∧ vtype ≠ "Folder" then
      pathJoin root (anc ++ [text]) :: collectGo root anc rest
    else if vtype = "Folder" then
      collectGo root (anc ++ [text]) children ++ collectGo root anc rest
    else
      collectGo root anc rest

/-- The Included set used as merge input: `_collect_included_files`
applied to the tree's top-level items. -/
def collectIncludedFiles (root : String) (top : TVNodes) : List String :=
  collectGo root [] top

/-- The same traversal, emitting the `path_parts` lists themselves
instead of the joined strings. -/
def collectRelGo (anc : List String) : TVNodes → List (List String)
  | .nil => []
  | .cons (.node text status vtype children) rest =>
    if status = "Included" ∧ vtype ≠ "Folder" then
      (anc ++ [text]) :: collectRelGo anc rest
    else if vtype = "Folder" then
      collectRelGo (anc ++ [text]) children ++ collectRelGo anc rest
    else
      collectRelGo anc rest

theorem collectGo_eq_rel (root : String) :
    ∀ (anc : List String) (ts : TVNodes),
      collectGo root anc ts = (collectRelGo anc ts).map (pathJoin root)
  | _, .nil => by simp [collectGo, collectRelGo]
  | anc, .cons (.node text status vtype children) rest => by
    simp only [collectGo, collectRelGo]
    split
    · simp [collectGo_eq_rel root anc rest]
    · split
      · simp [collectGo_eq_rel root (anc ++ [text]) children,
          collectGo_eq_rel root anc rest]
      · exact collectGo_eq_rel root anc rest

/-! ## The pruning invariant (claim C1). -/

theorem tvForestPaths_append : ∀ (a b : TVNodes),
    tvForestPaths (a.append b) = tvForestPaths a ++ tvForestPaths b
  | .nil, b => by simp [TVNodes.append, tvForestPaths]
  | .cons h t, b => by
    simp [TVNodes.append, tvForestPaths, tvForestPaths_append t b]

theorem tvForestFolderPaths_append : ∀ (a b : TVNodes),
    tvForestFolderPaths (a.append b) =
      tvForestFolderPaths a ++ tvForestFolderPaths b
  | .nil, b => by simp [TVNodes.append, tvForestFolderPaths]
  | .cons h t, b => by
    simp [TVNodes.append, tvForestFolderPaths, tvForestFolderPaths_append t b]

/-- Paths of the file nodes of one directory are single names. -/
theorem buildFileNodes_paths (cfg : ScanConfig) :
    ∀ (es : FSEntries) (p : List String),
      p ∈ tvForestPaths (buildFileNodes cfg es) → ∃ name, p = [name]
  | .nil, p => by simp [buildFileNodes, tvForestPaths]
  | .cons (.dir d sub) rest, p => by
    simp only [buildFileNodes]
    exact buildFileNodes_paths cfg rest p
  | .cons (.file f) rest, p => by
    simp only [buildFileNodes]
    split
    · exact buildFileNodes_paths cfg rest p
    · intro hp
      simp only [tvForestPaths, tvNodePaths, List.map_nil, List.mem_append,
        List.mem_cons, List.not_mem_nil, or_false] at hp
      rcases hp with hp | hp
      · exact ⟨f, hp⟩
      · exact buildFileNodes_paths cfg rest p hp

/-- Every path of a folder node of the walk output is nonempty and has
no pruned folder among its strict ancestors. -/
theorem buildDirNodes_paths (cfg : ScanConfig) :
    ∀ (es : FSEntries) (p : List String),
      p ∈ tvForestPaths (buildDirNodes cfg es) →
        p ≠ [] ∧ ∀ d ∈ p.dropLast, folderPruned cfg d = false
  | .nil, p => by simp [buildDirNodes, tvForestPaths]
  | .cons (.file f) rest, p => by
    simp only [buildDirNodes]
    exact buildDirNodes_paths cfg rest p
  | .cons (.dir d sub) rest, p => by
    simp only [buildDirNodes]
    split
    · exact buildDirNodes_paths cfg rest p
    · next hkept =>
      intro hp
      rw [Bool.not_eq_true] at hkept
      simp only [tvForestPaths, tvNodePaths, List.mem_append,
        List.mem_cons] at hp
      rcases hp with (hp | hp) | hp
      · subst hp
        simp
      · simp only [List.mem_map] at hp
        obtain ⟨q, hq, rfl⟩ := hp
        rw [tvForestPaths_append] at hq
        rcases List.mem_append.mp hq with hq | hq
        · have ⟨hne, hall⟩ := buildDirNodes_paths cfg sub q hq
          refine ⟨by simp, ?_⟩
          intro e he
          cases q with
          | nil => exact absurd rfl hne
          | cons q0 qs =>
            rw [List.dropLast_cons₂] at he
            rcases List.mem_cons.mp he with rfl | he
            · exact hkept
            · exact hall e he
        · obtain ⟨name, rfl⟩ := buildFileNodes_paths cfg sub q hq
          refine ⟨by simp, ?_⟩
          intro e he
          simp at he
          subst he
          exact hkept
      · exact buildDirNodes_paths cfg rest p hp

/-- Combined invariant for a directory's children. -/
theorem buildChildren_paths (cfg : ScanConfig) (es : FSEntries)
    (p : List String) (hp : p ∈ tvForestPaths (buildChildren cfg es)) :
    p ≠ [] ∧ ∀ d ∈ p.dropLast, folderPruned cfg d = false := by
  rw [buildChildren, tvForestPaths_append] at hp
  rcases List.mem_append.mp hp with hp | hp
  · exact buildDirNodes_paths cfg es p hp
  · obtain ⟨name, rfl⟩ := buildFileNodes_paths cfg es p hp
    exact ⟨by simp, by simp⟩

/-- Every item inserted into the ignored tree is nonempty and has no
pruned folder among its strict ancestors. -/
theorem ignoredDirItems_paths (cfg : ScanConfig) :
    ∀ (es : FSEntries) (p : List String),
      p ∈ ignoredDirItems cfg es →
        p ≠ [] ∧ ∀ d ∈ p.dropLast, folderPruned cfg d = false
  | .nil, p => by simp [ignoredDirItems]
  | .cons (.file f) rest, p => by
    simp only [ignoredDirItems, List.mem_append]
    intro hp
    rcases hp with hp | hp
    · split at hp
      · simp at hp
        subst hp
        exact ⟨by simp, by simp⟩
      · simp at hp
    · exact ignoredDirItems_paths cfg rest p hp
  | .cons (.dir d sub) rest, p => by
    simp only [ignoredDirItems, List.mem_append]
    intro hp
    rcases hp with hp | hp
    · split at hp
      · simp at hp
      · next hkept =>
        rw [Bool.not_eq_true] at hkept
        simp only [List.mem_map] at hp
        obtain ⟨q, hq, rfl⟩ := hp
        have ⟨hne, hall⟩ := ignoredDirItems_paths cfg sub q hq
        refine ⟨by simp, ?_⟩
        intro e he
        cases q with
        | nil => exact absurd rfl hne
        | cons q0 qs =>
          rw [List.dropLast_cons₂] at he
          rcases List.mem_cons.mp he with rfl | he
          · exact hkept
          · exact hall e he
    · exact ignoredDirItems_paths cfg rest p hp

/-- An extension computed by `os.path.splitext` is never the literal
column text `Folder`: it is either empty or starts with a dot. -/
theorem splitextExt_ne_Folder (name : String) :
    splitextExt name ≠ "Folder" := by
  have key : ∀ (l : List Char) (e : String),
      splitextExt.findExtFrom l = some e → e.toList.head? = some '.' := by
    intro l
    induction l with
    | nil => intro e h; simp [splitextExt.findExtFrom] at h
    | cons c rest ih =>
      intro e h
      rw [splitextExt.findExtFrom] at h
      cases hrec : splitextExt.findExtFrom rest with
      | some e' =>
        rw [hrec] at h
        simp at h
        exact h ▸ ih e' hrec
      | none =>
        rw [hrec] at h
        by_cases hc : c = '.'
        · simp only [if_pos hc] at h
          simp only [Option.some.injEq] at h
          rw [← h, hc]
          simp
        · simp [hc] at h
  unfold splitextExt
  cases hfind : splitextExt.findExtFrom
      (name.toList.drop
        ((name.toList.takeWhile (fun c => c = '.')).length)) with
  | none => simp
  | some e =>
    simp only [Option.getD_some]
    intro heq
    subst heq
    have := key _ _ hfind
    exact absurd this (by decide)

/-- Collected relative paths are paths of Included file nodes of the
same forest, prefixed by the ancestor accumulator. -/
theorem collectRelGo_sub :
    ∀ (anc : List String) (ts : TVNodes) (p : List String),
      p ∈ collectRelGo anc ts →
        ∃ q ∈ tvForestPaths ts, p = anc ++ q
  | anc, .nil, p => by simp [collectRelGo]
  | anc, .cons (.node text status vtype children) rest, p => by
    simp only [collectRelGo]
    split
    · intro hp
      rcases List.mem_cons.mp hp with rfl | hp
      · exact ⟨[text], by simp [tvForestPaths, tvNodePaths], rfl⟩
      · obtain ⟨q, hq, rfl⟩ := collectRelGo_sub anc rest p hp
        exact ⟨q, by simp [tvForestPaths, hq], rfl⟩
    · split
      · intro hp
        rcases List.mem_append.mp hp with hp | hp
        · obtain ⟨q, hq, rfl⟩ :=
            collectRelGo_sub (anc ++ [text]) children p hp
          refine ⟨text :: q, ?_, by simp⟩
          simp only [tvForestPaths, tvNodePaths]
          refine List.mem_append.mpr (Or.inl ?_)
          exact List.mem_cons.mpr
            (Or.inr (List.mem_map.mpr ⟨q, hq, rfl⟩))
        · obtain ⟨q, hq, rfl⟩ := collectRelGo_sub anc rest p hp
          exact ⟨q, by simp [tvForestPaths, hq], rfl⟩
      · intro hp
        obtain ⟨q, hq, rfl⟩ := collectRelGo_sub anc rest p hp
        exact ⟨q, by simp [tvForestPaths, hq], rfl⟩

/-- File nodes never produce `Folder` paths. -/
theorem buildFileNodes_folderPaths (cfg : ScanConfig) :
    ∀ (es : FSEntries), tvForestFolderPaths (buildFileNodes cfg es) = []
  | .nil => by simp [buildFileNodes, tvForestFolderPaths]
  | .cons (.dir d sub) rest => by
    simp only [buildFileNodes]
    exact buildFileNodes_folderPaths cfg rest
  | .cons (.file f) rest => by
    simp only [buildFileNodes]
    split
    · exact buildFileNodes_folderPaths cfg rest
    · simp [tvForestFolderPaths, tvNodeFolderPaths, splitextExt_ne_Folder f,
        buildFileNodes_folderPaths cfg rest]

/-- Every `Folder` path of the walk output consists entirely of
non-pruned folder names (in particular a pruned folder itself never
appears as a folder node). -/
theorem buildDirNodes_folderPaths (cfg : ScanConfig) :
    ∀ (es : FSEntries) (p : List String),
      p ∈ tvForestFolderPaths (buildDirNodes cfg es) →
        ∀ d ∈ p, folderPruned cfg d = false
  | .nil, p => by simp [buildDirNodes, tvForestFolderPaths]
  | .cons (.file f) rest, p => by
    simp only [buildDirNodes]
    exact buildDirNodes_folderPaths cfg rest p
  | .cons (.dir d sub) rest, p => by
    simp only [buildDirNodes]
    split
    · exact buildDirNodes_folderPaths cfg rest p
    · next hkept =>
      intro hp
      rw [Bool.not_eq_true] at hkept
      simp only [tvForestFolderPaths, tvNodeFolderPaths, eq_self_iff_true,
        if_true, List.mem_append, List.singleton_append,
        List.mem_cons] at hp
      rcases hp with (hp | hp) | hp
      · subst hp
        simp [hkept]
      · simp only [List.mem_map] at hp
        obtain ⟨q, hq, rfl⟩ := hp
        rw [tvForestFolderPaths_append,
          buildFileNodes_folderPaths cfg sub, List.append_nil] at hq
        have hall := buildDirNodes_folderPaths cfg sub q hq
        intro e he
        rcases List.mem_cons.mp he with rfl | he
        · exact hkept
        · exact hall e he
      · exact buildDirNodes_folderPaths cfg rest p hp

/-- C1: for every rule configuration and every scanned directory tree,
nothing below a folder whose name matches a session or global
folder-ignore pattern ever appears: every item path of the main tree,
of the ignored tree, and of the collected Included set has only
non-pruned strict ancestors, and every folder node's full path consists
of non-pruned names (so a matching folder and its descendants appear in
neither displayed tree and contribute nothing to the merge input,
regardless of the descendants' extensions or file-ignore status). -/
theorem claim_C1_pruned_subtree_never_visited
    (cfg : ScanConfig) (es : FSEntries) :
    (∀ p, (p ∈ tvForestPaths (buildChildren cfg es) ∨
           p ∈ ignoredDirItems cfg es ∨
           p ∈ collectRelGo [] (buildChildren cfg es)) →
        ∀ d ∈ p.dropLast, folderPruned cfg d = false)
  ∧ (∀ p, p ∈ tvForestFolderPaths (buildChildren cfg es) →
        ∀ d ∈ p, folderPruned cfg d = false) := by
  constructor
  · intro p hp
    rcases hp with hp | hp | hp
    · exact (buildChildren_paths cfg es p hp).2
    · exact (ignoredDirItems_paths cfg es p hp).2
    · obtain ⟨q, hq, heq⟩ := collectRelGo_sub [] (buildChildren cfg es) p hp
      rw [heq]
      simpa using (buildChildren_paths cfg es q hq).2
  · intro p hp
    rw [buildChildren, tvForestFolderPaths_append,
      buildFileNodes_folderPaths cfg es, List.append_nil] at hp
    exact buildDirNodes_folderPaths cfg es p hp

/-- A configuration with a global folder-ignore for `__pycache__`. -/
def sampleCfg : ScanConfig :=
  { sessionFolderIgnores := []
    sessionFileIgnores := []
    globalFolderIgnores := ["__pycache__"]
    globalFileIgnores := ["*.pyc"]
    extensions := [".py"]
    hideIgnored := false
    showIgnoredSeparately := false }

/-- A root listing: `src/a.py` and `__pycache__/c.py`. -/
def sampleTree : FSEntries :=
  .cons (.dir "src" (.cons (.file "a.py") .nil))
    (.cons (.dir "__pycache__" (.cons (.file "c.py") .nil)) .nil)

theorem claim_C1_witness :
    (["src", "a.py"] ∈ tvForestPaths (buildChildren sampleCfg sampleTree) ∨
     ["src", "a.py"] ∈ ignoredDirItems sampleCfg sampleTree ∨
     ["src", "a.py"] ∈ collectRelGo [] (buildChildren sampleCfg sampleTree))
  ∧ (∀ d ∈ (["src", "a.py"] : List String).dropLast,
      folderPruned sampleCfg d = false) :=
  ⟨Or.inl (by decide),
   (claim_C1_pruned_subtree_never_visited sampleCfg sampleTree).1
     ["src", "a.py"] (Or.inl (by decide))⟩

/-! ## Claim C2: status assignment and precedence. -/

/-- C2: every scanned file gets exactly one of the four statuses, and
the status is the first matching rule in the fixed order session-ignore,
global-ignore, extension mismatch, included. -/
theorem claim_C2_status_precedence (cfg : ScanConfig) (name : String) :
    (fileStatus cfg name = .ignoredSession ↔
      matchAny name cfg.sessionFileIgnores = true)
  ∧ (fileStatus cfg name = .ignoredGlobal ↔
      matchAny name cfg.sessionFileIgnores = false ∧
      matchAny name cfg.globalFileIgnores = true)
  ∧ (fileStatus cfg name = .ignoredType ↔
      matchAny name cfg.sessionFileIgnores = false ∧
      matchAny name cfg.globalFileIgnores = false ∧
      isExtMatch cfg.extensions name = false)
  ∧ (fileStatus cfg name = .included ↔
      matchAny name cfg.sessionFileIgnores = false ∧
      matchAny name cfg.globalFileIgnores = false ∧
      isExtMatch cfg.extensions name = true) := by
  unfold fileStatus
  cases hs : matchAny name cfg.sessionFileIgnores <;>
    cases hg : matchAny name cfg.globalFileIgnores <;>
      cases he : isExtMatch cfg.extensions name <;>
        simp

/-! ## The merge pipeline (`FileProcessor`, FileProcessor.py).

The worker's view of one input file bundles the outcomes of the
external reads a strategy may perform on its path: `open().read()`
with `errors='replace'` (so `textRead` carries the post-replacement
text), `PdfReader` page extraction, the optional office-conversion
sequence (a `ConvertOutcome` distinguishing where in lines 96–118 a
failure occurs), `Document(path)` body elements, and
`Presentation(path)` slides.

`cancelAt = some k` models `self.app.cancel_requested` becoming (and
staying) set between the k-th and (k+1)-th flag reads: the check
before processing file `i` observes it set iff `k ≤ i`, and a
strategy's final flag check counts as read number `files.length`.

Note on reachability: the strategy functions are modelled as the
function bodies the source defines; at runtime none of them is ever
invoked through the dispatcher, because `merge_documents` raises
`AttributeError` while evaluating its strategy-table literal (see
`fileProcessorAttrs`, `mergeDocuments` and `processFiles` below). -/

deriving instance DecidableEq for Except

/-- One slide shape, as `merge_as_pptx`'s simplified copy sees it:
a text frame, a picture whose `image.blob` access may fail, or any
other shape type (dropped by the copy). -/
inductive PShape where
  | textShape (text : String)
  | picture (blob : Except String String)
  | otherShape
deriving DecidableEq

/-- One slide: its shapes in order. -/
structure Slide where
  shapes : List PShape
deriving DecidableEq

/-- The possible outcomes of the office-conversion block of
`merge_as_pdf` (lines 96–113), which assigns `pdf_path` before opening
the document and reads the temporary PDF back afterwards (line 118):

* `converted pages`: `CreateObject`/`Open`/`SaveAs`/`Close` all
  succeeded and the temporary PDF read back these pages;
* `failedBeforeTemp e`: `CreateObject` raised before `pdf_path` was
  assigned (line 99/108 not reached) — a per-file error is recorded and
  `if pdf_path:` is false, so the loop continues;
* `failedAfterTemp e readbackErr`: `Open`/`SaveAs` raised after
  `pdf_path` was assigned — the per-file error is recorded, but
  `if pdf_path:` is then true and opening the never-created temporary
  file raises `readbackErr`, which escapes to the outer handler
  (line 129) and aborts the merge critically;
* `failedClose e pages`: `Close` raised after the temporary PDF was
  written — the per-file error is recorded, yet the readback succeeds
  and appends `pages` (and the temp is never added to the cleanup
  list). -/
inductive ConvertOutcome where
  | converted (pages : List String)
  | failedBeforeTemp (e : String)
  | failedAfterTemp (e : String) (readbackErr : String)
  | failedClose (e : String) (pages : List String)
deriving DecidableEq

/-- One input file together with the outcomes of the reads the four
strategies can perform on it. -/
structure InputFile where
  path : String
  textRead : Except String String
  pdfRead : Except String (List String)
  officeConvert : ConvertOutcome
  docxRead : Except String (List String)
  pptxRead : Except String (List Slide)
deriving DecidableEq

/-- The reading of the cancellation flag number `i` of a run. -/
def cancelObserved (cancelAt : Option Nat) (i : Nat) : Bool :=
  match cancelAt with
  | none => false
  | some k => decide (k ≤ i)

/-- The separator `"=" * 20`. -/
def sepLine : String := String.mk (List.replicate 20 '=')

/-- The header block written before a file when Include File Headers is
set (line 70). -/
def textHeader (path : String) : String :=
  "\n" ++ sepLine ++ "\n# File: " ++ path ++ "\n" ++ sepLine ++ "\n\n"

/-- The message `f"Error reading file {path}: {e}"` (line 75). -/
def readErrorMsg (path e : String) : String :=
  "Error reading file " ++ path ++ ": " ++ e

/-- What one file contributes to the text output and to the error list
(lines 69–77): optional header, then the file text plus a newline, or
an error-comment placeholder plus a recorded error. -/
def textPiece (headers : Bool) (f : InputFile) : String × List String :=
  let hdr := if headers then textHeader f.path else ""
  match f.textRead with
  | .ok content => (hdr ++ content ++ "\n", [])
  | .error e =>
    (hdr ++ "# " ++ readErrorMsg f.path e ++ "\n", [readErrorMsg f.path e])

/-- The Text strategy loop (lines 65–77): before each file the
cancellation flag is checked; on observation the function returns,
leaving the output written so far. -/
def mergeAsTextGo (headers : Bool) (cancelAt : Option Nat) :
    Nat → List InputFile → String × List String
  | _, [] => ("", [])
  | i, f :: rest =>
    if cancelObserved cancelAt i then ("", [])
    else
      let piece := textPiece headers f
      let r := mergeAsTextGo headers cancelAt (i + 1) rest
      (piece.1 ++ r.1, piece.2 ++ r.2)

/-- Result of `merge_as_text`: the content of the output file (opened
at entry, so it exists even when cancelled immediately) and the errors
appended to `processing_errors` during the run. -/
structure TextMergeResult where
  output : String
  newErrors : List String
deriving DecidableEq

/-- Model of `merge_as_text` (lines 61–77). -/
def mergeAsText (headers : Bool) (cancelAt : Option Nat)
    (files : List InputFile) : TextMergeResult :=
  let r := mergeAsTextGo headers cancelAt 0 files
  ⟨r.1, r.2⟩

/-- The status report written by `merge_documents` lines 55–59 —
`"Operation cancelled."` when the flag is set, else
`"Finished. Consolidated {len(file_paths) - len(errors)} files."`.
Those lines are unreachable (the strategy-table literal at line 46
raises first, see `mergeDocuments` below), so no run ever emits a
value of this type. -/
inductive RunStatus where
  | cancelled
  | finished (consolidatedCount : Int)
deriving DecidableEq

/-- Model of `s.lower().endswith(tuple)`. -/
def endsWithAny (s : String) (suffixes : List String) : Bool :=
  suffixes.any (fun suf => strEndsWith s suf)

/-- Outcome of the PDF strategy's loop (lines 88–123): ran to the end,
broke out on the cancellation flag, or aborted on an exception caught
by the outer handler (line 129), e.g. a failing page read. -/
inductive PdfLoop where
  | done (pages : List String) (errs : List String)
  | broke (pages : List String) (errs : List String)
  | critical (errs : List String)
deriving DecidableEq

/-- The PDF strategy loop. A `.pdf` input has its pages appended to the
writer (a failing read escapes to the critical handler); a Word or
PowerPoint input is converted only when the office service is present,
with the four `ConvertOutcome` cases of lines 96–118 (including the
critical escalation when a stale `pdf_path` points at a temporary file
that was never created); anything else records a skip error and
continues. -/
def pdfGo (office : Bool) (cancelAt : Option Nat) :
    Nat → List String → List String → List InputFile → PdfLoop
  | _, pages, errs, [] => .done pages errs
  | i, pages, errs, f :: rest =>
    if cancelObserved cancelAt i then .broke pages errs
    else if strEndsWith (strToLower f.path) ".pdf" then
      match f.pdfRead with
      | .ok pgs => pdfGo office cancelAt (i + 1) (pages ++ pgs) errs rest
      | .error e =>
        .critical (errs ++ ["A critical error occurred during PDF merge: " ++ e])
    else if endsWithAny (strToLower f.path) [".docx", ".doc"] && office then
      match f.officeConvert with
      | .converted pgs =>
        pdfGo office cancelAt (i + 1) (pages ++ pgs) errs rest
      | .failedBeforeTemp e =>
        pdfGo office cancelAt (i + 1) pages
          (errs ++ ["Failed to convert DOCX " ++ basename f.path ++ ": " ++ e])
          rest
      | .failedAfterTemp e readbackErr =>
        .critical
          (errs ++ ["Failed to convert DOCX " ++ basename f.path ++ ": " ++ e]
            ++ ["A critical error occurred during PDF merge: " ++ readbackErr])
      | .failedClose e pgs =>
        pdfGo office cancelAt (i + 1) (pages ++ pgs)
          (errs ++ ["Failed to convert DOCX " ++ basename f.path ++ ": " ++ e])
          rest
    else if endsWithAny (strToLower f.path) [".pptx", ".ppt"] && office then
      match f.officeConvert with
      | .converted pgs =>
        pdfGo office cancelAt (i + 1) (pages ++ pgs) errs rest
      | .failedBeforeTemp e =>
        pdfGo office cancelAt (i + 1) pages
          (errs ++ ["Failed to convert PPTX " ++ basename f.path ++ ": " ++ e])
          rest
      | .failedAfterTemp e readbackErr =>
        .critical
          (errs ++ ["Failed to convert PPTX " ++ basename f.path ++ ": " ++ e]
            ++ ["A critical error occurred during PDF merge: " ++ readbackErr])
      | .failedClose e pgs =>
        pdfGo office cancelAt (i + 1) (pages ++ pgs)
          (errs ++ ["Failed to convert PPTX " ++ basename f.path ++ ": " ++ e])
          rest
    else
      pdfGo office cancelAt (i + 1) pages
        (errs ++ ["Skipped unsupported file for PDF merge: " ++ basename f.path])
        rest

/-- Result of `merge_as_pdf`: whether the office-missing warning popped
up (line 81), the pages written to the output (none when cancelled or
aborted), and the errors appended during the run. -/
structure PdfMergeResult where
  warningShown : Bool
  written : Option (List String)
  newErrors : List String
deriving DecidableEq

/-- Model of `merge_as_pdf` (lines 79–139, the module-level function): the
output is written only when the loop finished and the flag is still
unset at the final check (line 125). -/
def mergeAsPdf (office : Bool) (cancelAt : Option Nat)
    (files : List InputFile) : PdfMergeResult :=
  let warn := !office &&
    files.any (fun f =>
      endsWithAny (strToLower f.path) [".docx", ".doc", ".pptx", ".ppt"])
  match pdfGo office cancelAt 0 [] [] files with
  | .done pages errs =>
    if cancelObserved cancelAt files.length then ⟨warn, none, errs⟩
    else ⟨warn, some pages, errs⟩
  | .broke _ errs => ⟨warn, none, errs⟩
  | .critical errs => ⟨warn, none, errs⟩

/-- An element appended to the master document by `merge_as_docx`. -/
inductive DocxItem where
  | heading (text : String) (level : Nat)
  | pageBreak
  | content (s : String)
deriving DecidableEq

/-- The DOCX strategy loop (lines 148–166): returns the items appended,
the errors appended, and whether the loop returned early on the
cancellation flag. A failing `Document(path)` still leaves the page
break and heading that were added before it (they precede the `raise`
inside the `try`). -/
def docxGo (headers : Bool) (cancelAt : Option Nat) :
    Nat → List InputFile → List DocxItem × List String × Bool
  | _, [] => ([], [], false)
  | i, f :: rest =>
    if cancelObserved cancelAt i then ([], [], true)
    else if strEndsWith (strToLower f.path) ".docx" then
      let pre :=
        (if i > 0 || !headers then [DocxItem.pageBreak] else []) ++
        (if headers then
          [DocxItem.heading ("Content from: " ++ basename f.path) 1]
         else [])
      match f.docxRead with
      | .ok body =>
        let r := docxGo headers cancelAt (i + 1) rest
        (pre ++ body.map DocxItem.content ++ r.1, r.2.1, r.2.2)
      | .error e =>
        let r := docxGo headers cancelAt (i + 1) rest
        (pre ++ r.1,
         ("Could not process DOCX file " ++ basename f.path ++ ": " ++ e)
           :: r.2.1,
         r.2.2)
    else
      let r := docxGo headers cancelAt (i + 1) rest
      (r.1, ("Skipped non-DOCX file: " ++ basename f.path) :: r.2.1, r.2.2)

/-- Result of `merge_as_docx`: the saved master document (none when the
loop returned early or the final flag check failed, i.e. `save` was
never called) and the errors appended. -/
structure DocxMergeResult where
  saved : Option (List DocxItem)
  newErrors : List String
deriving DecidableEq

/-- Model of `merge_as_docx` (lines 142–169). -/
def mergeAsDocx (headers : Bool) (cancelAt : Option Nat)
    (files : List InputFile) : DocxMergeResult :=
  let base :=
    if !files.isEmpty && headers then
      [DocxItem.heading "Consolidated Document" 0]
    else []
  let r := docxGo headers cancelAt 0 files
  if r.2.2 then ⟨none, r.2.1⟩
  else if cancelObserved cancelAt files.length then ⟨none, r.2.1⟩
  else ⟨some (base ++ r.1), r.2.1⟩

/-- The simplified shape copy of one slide (lines 186–195): text frames
are carried over, pictures are carried over unless reading the blob
fails (recorded error, shape skipped), and every other shape type is
silently dropped. -/
def copySlideShapes (srcPath : String) :
    List PShape → List PShape × List String
  | [] => ([], [])
  | PShape.textShape t :: rest =>
    let r := copySlideShapes srcPath rest
    (PShape.textShape t :: r.1, r.2)
  | PShape.picture (.ok blob) :: rest =>
    let r := copySlideShapes srcPath rest
    (PShape.picture (.ok blob) :: r.1, r.2)
  | PShape.picture (.error e) :: rest =>
    let r := copySlideShapes srcPath rest
    (r.1, ("Could not copy image from " ++ basename srcPath ++ ": " ++ e)
      :: r.2)
  | PShape.otherShape :: rest => copySlideShapes srcPath rest

/-- Copy every slide of a presentation (lines 182–195). -/
def copySlides (srcPath : String) : List Slide → List Slide × List String
  | [] => ([], [])
  | s :: rest =>
    let c := copySlideShapes srcPath s.shapes
    let r := copySlides srcPath rest
    (⟨c.1⟩ :: r.1, c.2 ++ r.2)

/-- The PPTX strategy loop (lines 174–199). -/
def pptxGo (cancelAt : Option Nat) :
    Nat → List InputFile → List Slide × List String × Bool
  | _, [] => ([], [], false)
  | i, f :: rest =>
    if cancelObserved cancelAt i then ([], [], true)
    else if strEndsWith (strToLower f.path) ".pptx" then
      match f.pptxRead with
      | .ok slides =>
        let c := copySlides f.path slides
        let r := pptxGo cancelAt (i + 1) rest
        (c.1 ++ r.1, c.2 ++ r.2.1, r.2.2)
      | .error e =>
        let r := pptxGo cancelAt (i + 1) rest
        (r.1, ("Could not process " ++ basename f.path ++ ": " ++ e)
          :: r.2.1, r.2.2)
    else
      let r := pptxGo cancelAt (i + 1) rest
      (r.1, ("Skipped non-PPTX file: " ++ basename f.path) :: r.2.1, r.2.2)

/-- Result of `merge_as_pptx`. -/
structure PptxMergeResult where
  saved : Option (List Slide)
  newErrors : List String
deriving DecidableEq

/-- Model of `merge_as_pptx` (lines 171–202). -/
def mergeAsPptx (cancelAt : Option Nat) (files : List InputFile) :
    PptxMergeResult :=
  let r := pptxGo cancelAt 0 files
  if r.2.2 then ⟨none, r.2.1⟩
  else if cancelObserved cancelAt files.length then ⟨none, r.2.1⟩
  else ⟨some r.1, r.2.1⟩

/-- The four known strategies of the dispatch table (lines 44–49). -/
inductive StrategyKind where
  | txt
  | pdf
  | docx
  | pptx
deriving DecidableEq

/-- Model of `merge_function_map.get(output_format)` (line 50; only
reachable if the table literal had been built, which it never is). -/
def lookupStrategy (fmt : String) : Option StrategyKind :=
  if fmt = "TXT" then some .txt
  else if fmt = "PDF" then some .pdf
  else if fmt = "DOCX" then some .docx
  else if fmt = "PPTX" then some .pptx
  else none

/-- The attributes the `FileProcessor` class actually provides:
its instance attributes (set in `__init__`, lines 22–24) and its
methods.  Crucially, `def merge_as_pdf` sits at column 0 (line 79), so
it is a module-level function, not a method, and `merge_as_docx` /
`merge_as_pptx` (lines 142, 171, indented four spaces) are nested
inside its body — none of the three is an attribute of the class. -/
def fileProcessorAttrs : List String :=
  ["app", "OFFICE_INSTALLED", "__init__", "process_files",
   "merge_documents", "merge_as_text"]

/-- Python attribute lookup `self.<name>` on a `FileProcessor`
instance: the name, or the `AttributeError` message it raises. -/
def getattrFileProcessor (name : String) : Except String String :=
  if fileProcessorAttrs.contains name then .ok name
  else
    .error ("'FileProcessor' object has no attribute '" ++ name ++ "'")

/-- The rows of the `merge_function_map` dict literal (lines 44–49), as
format selector and attribute name, in source order. -/
def strategyTableRows : List (String × String) :=
  [("TXT", "merge_as_text"), ("PDF", "merge_as_pdf"),
   ("DOCX", "merge_as_docx"), ("PPTX", "merge_as_pptx")]

/-- Evaluating the dict literal: each value expression `self.<name>` is
evaluated in order, and the first missing attribute raises out of
`merge_documents`. -/
def buildStrategyTable :
    List (String × String) → Except String (List (String × String))
  | [] => .ok []
  | (fmt, attr) :: rest =>
    match getattrFileProcessor attr with
    | .ok _ =>
      match buildStrategyTable rest with
      | .ok t => .ok ((fmt, attr) :: t)
      | .error e => .error e
    | .error e => .error e

/-- The message of the exception every `merge_documents` call raises:
the dict literal evaluates `self.merge_as_pdf` (line 46) and
`merge_as_pdf` is not an attribute of the class. -/
def strategyTableExcMsg : String :=
  "'FileProcessor' object has no attribute 'merge_as_pdf'"

/-- Result of the dispatch-and-status code of `merge_documents`
lines 50–59, were it ever reached: which strategy ran (none when the
selector is unknown — `if merge_function:` then silently skips the
call), that strategy's output, the errors appended, and the final
status report. -/
structure DispatchResult where
  ranStrategy : Option StrategyKind
  textOut : Option TextMergeResult
  pdfOut : Option PdfMergeResult
  docxOut : Option DocxMergeResult
  pptxOut : Option PptxMergeResult
  newErrors : List String
  status : RunStatus
deriving DecidableEq

/-- The status report of lines 55–59 (dead code, kept for fidelity of
the `.ok` arm below). -/
def deadStatusReport (cancelAt : Option Nat) (nFiles : Nat)
    (errs : List String) : RunStatus :=
  if cancelObserved cancelAt nFiles then .cancelled
  else .finished ((nFiles : Int) - (errs.length : Int))

/-- Model of `merge_documents` (lines 40–59): evaluating the
`merge_function_map` literal raises `AttributeError` at
`self.merge_as_pdf` on every call, so the function always returns the
escaped exception; the `.ok` arm transcribes the dispatch and status
code of lines 50–59 that this makes unreachable. -/
def mergeDocuments (fmt : String) (headers office : Bool)
    (cancelAt : Option Nat) (files : List InputFile) :
    Except String DispatchResult :=
  match buildStrategyTable strategyTableRows with
  | .error e => .error e
  | .ok _ =>
    .ok
      (match lookupStrategy fmt with
       | some .txt =>
         let r := mergeAsText headers cancelAt files
         ⟨some .txt, some r, none, none, none, r.newErrors,
           deadStatusReport cancelAt files.length r.newErrors⟩
       | some .pdf =>
         let r := mergeAsPdf office cancelAt files
         ⟨some .pdf, none, some r, none, none, r.newErrors,
           deadStatusReport cancelAt files.length r.newErrors⟩
       | some .docx =>
         let r := mergeAsDocx headers cancelAt files
         ⟨some .docx, none, none, some r, none, r.newErrors,
           deadStatusReport cancelAt files.length r.newErrors⟩
       | some .pptx =>
         let r := mergeAsPptx cancelAt files
         ⟨some .pptx, none, none, none, some r, r.newErrors,
           deadStatusReport cancelAt files.length r.newErrors⟩
       | none =>
         ⟨none, none, none, none, none, [],
           deadStatusReport cancelAt files.length []⟩)

/-- Every call of `merge_documents` raises the same `AttributeError`
before reaching the dispatch. -/
theorem mergeDocuments_always_raises (fmt : String) (headers office : Bool)
    (cancelAt : Option Nat) (files : List InputFile) :
    mergeDocuments fmt headers office cancelAt files =
      Except.error strategyTableExcMsg := rfl

/-- The message of line 35, `f"A critical error occurred: {e}"`. -/
def criticalErrorMsg (e : String) : String :=
  "A critical error occurred: " ++ e

/-- What one full worker run leaves behind, as `process_files`
(lines 26–38) produces it: the max-progress signal, which strategy was
actually invoked and its output, the errors appended to
`processing_errors`, the status report of lines 55–59 if one was
emitted, and the final done signal of the `finally` block. -/
structure ProcessFilesResult where
  maxProgressSignal : Nat
  ranStrategy : Option StrategyKind
  textOut : Option TextMergeResult
  pdfOut : Option PdfMergeResult
  docxOut : Option DocxMergeResult
  pptxOut : Option PptxMergeResult
  newErrors : List String
  statusReport : Option RunStatus
  doneSignaled : Bool
deriving DecidableEq

/-- Model of `process_files` (lines 26–38): signal max progress, call
`merge_documents`, catch any exception into the critical-error message,
and always signal done.  Since `merge_documents` always raises at the
table literal, every run ends with the critical error recorded, no
strategy invoked, no file read or written, and no status report. -/
def processFiles (fmt : String) (headers office : Bool)
    (cancelAt : Option Nat) (files : List InputFile) :
    ProcessFilesResult :=
  match mergeDocuments fmt headers office cancelAt files with
  | .error e =>
    { maxProgressSignal := files.length, ranStrategy := none,
      textOut := none, pdfOut := none, docxOut := none, pptxOut := none,
      newErrors := [criticalErrorMsg e], statusReport := none,
      doneSignaled := true }
  | .ok d =>
    { maxProgressSignal := files.length, ranStrategy := d.ranStrategy,
      textOut := d.textOut, pdfOut := d.pdfOut, docxOut := d.docxOut,
      pptxOut := d.pptxOut, newErrors := d.newErrors,
      statusReport := some d.status, doneSignaled := true }

/-- The format selectors the dispatch table knows. -/
def knownFormats : List String := ["TXT", "PDF", "DOCX", "PPTX"]

/-- The spec's Failed outcome for a worker run (spec section 7: a
critical error is recorded distinctly and aborts the run; neither the
Completed nor the Cancelled status report is produced). -/
def failedOutcome (r : ProcessFilesResult) : Prop :=
  r.newErrors ≠ [] ∧ r.statusReport = none

/-- A plain readable text input (used by concrete scenarios). -/
def mkTextInput (path content : String) : InputFile :=
  ⟨path, .ok content, .ok [], .converted [], .ok [], .ok []⟩

/-! ## Text-strategy lemmas (claims C4, C6, C8). -/

/-- Concatenation of a list of strings, in order. -/
def concatStrings : List String → String
  | [] => ""
  | s :: rest => s ++ concatStrings rest

theorem concatStrings_append : ∀ (a b : List String),
    concatStrings (a ++ b) = concatStrings a ++ concatStrings b
  | [], b => by simp [concatStrings]
  | s :: rest, b => by
    simp [concatStrings, concatStrings_append rest b, String.append_assoc]

/-- With the flag never observed, the text loop ignores its index and
produces the concatenation of the per-file pieces. -/
theorem mergeAsTextGo_none (headers : Bool) :
    ∀ (files : List InputFile) (i : Nat),
      mergeAsTextGo headers none i files =
        (concatStrings (files.map (fun f => (textPiece headers f).1)),
         (files.map (fun f => (textPiece headers f).2)).join)
  | [], i => by simp [mergeAsTextGo, concatStrings]
  | f :: rest, i => by
    simp [mergeAsTextGo, cancelObserved, concatStrings,
      mergeAsTextGo_none headers rest (i + 1)]

/-- With the flag first observed at reading `k`, the text loop behaves
exactly like an uncancelled run over the first `k - i` files. -/
theorem mergeAsTextGo_cancel (headers : Bool) (k : Nat) :
    ∀ (files : List InputFile) (i : Nat), i ≤ k →
      mergeAsTextGo headers (some k) i files =
        mergeAsTextGo headers none i (files.take (k - i))
  | [], i, _ => by simp [mergeAsTextGo, List.take_nil]
  | f :: rest, i, h => by
    by_cases hik : k ≤ i
    · have h0 : k - i = 0 := by omega
      have hobs : cancelObserved (some k) i = true := by
        simp [cancelObserved, hik]
      simp [mergeAsTextGo, hobs, h0]
    · have hobs : cancelObserved (some k) i = false := by
        simp [cancelObserved]
        omega
      have hobs2 : cancelObserved none i = false := rfl
      have h2 : k - i = (k - (i + 1)) + 1 := by omega
      rw [h2, List.take_succ_cons]
      simp only [mergeAsTextGo, hobs, hobs2, Bool.false_eq_true, if_false]
      simp [mergeAsTextGo_cancel headers k rest (i + 1) (by omega)]

/-- True when `f.textRead` succeeded. -/
def readOk (f : InputFile) : Bool :=
  match f.textRead with
  | .ok _ => true
  | .error _ => false

/-- The text a readable file contributes (the content of
`open(path, errors='replace').read()`). -/
def textContent (f : InputFile) : String :=
  match f.textRead with
  | .ok c => c
  | .error _ => ""

theorem textPiece_readable (f : InputFile) (h : readOk f = true) :
    textPiece false f = (textContent f ++ "\n", []) := by
  unfold readOk at h
  unfold textPiece textContent
  cases hr : f.textRead with
  | ok c => simp
  | error e => rw [hr] at h; simp at h

/-- C4: with headers disabled and every input readable, the Text
strategy's output is exactly each file's content followed by one
newline, concatenated in input order, and no error is recorded. -/
theorem claim_C4_text_concatenation (files : List InputFile)
    (h : files.all readOk = true) :
    (mergeAsText false none files).output =
      concatStrings (files.map (fun f => textContent f ++ "\n"))
  ∧ (mergeAsText false none files).newErrors = [] := by
  unfold mergeAsText
  rw [mergeAsTextGo_none]
  rw [List.all_eq_true] at h
  constructor
  · show concatStrings _ = concatStrings _
    congr 1
    apply List.map_congr_left
    intro f hf
    rw [textPiece_readable f (h f hf)]
  · show List.join _ = []
    have : files.map (fun f => (textPiece false f).2) =
        files.map (fun _ => ([] : List String)) := by
      apply List.map_congr_left
      intro f hf
      rw [textPiece_readable f (h f hf)]
    rw [this]
    induction files with
    | nil => rfl
    | cons g rest ih => simpa using ih (fun f hf => h f (by simp [hf]))

/-- Two readable single-line files. -/
def twoTextFiles : List InputFile :=
  [mkTextInput "a.txt" "alpha", mkTextInput "b.txt" "beta"]

theorem claim_C4_witness :
    twoTextFiles.all readOk = true
  ∧ ((mergeAsText false none twoTextFiles).output =
      concatStrings (twoTextFiles.map (fun f => textContent f ++ "\n"))
    ∧ (mergeAsText false none twoTextFiles).newErrors = []) :=
  ⟨by decide, claim_C4_text_concatenation twoTextFiles (by decide)⟩

/-- C6 (amended): the Text strategy's body checks the flag before each
file; when the flag is first observed after `k` of the files have been
processed, the function returns with output and accumulated errors
exactly those of an uncancelled run over the first `k` files
(cancellation itself adds no error).  No conjunct about a Cancelled
outcome: the `"Operation cancelled."` report of `merge_documents`
lines 55–56 is unreachable (see `claim_C6_counterexample`). -/
theorem claim_C6_text_cancellation (headers : Bool)
    (files : List InputFile) (k : Nat) (h : k ≤ files.length) :
    (mergeAsText headers (some k) files).output =
      (mergeAsText headers none (files.take k)).output
  ∧ (mergeAsText headers (some k) files).newErrors =
      (mergeAsText headers none (files.take k)).newErrors := by
  have key := mergeAsTextGo_cancel headers k files 0 (Nat.zero_le k)
  simp only [Nat.sub_zero] at key
  unfold mergeAsText
  exact ⟨by rw [key], by rw [key]⟩

/-- Five readable files for the cancellation scenario. -/
def fiveTextFiles : List InputFile :=
  [mkTextInput "f1" "one", mkTextInput "f2" "two", mkTextInput "f3" "three",
   mkTextInput "f4" "four", mkTextInput "f5" "five"]

theorem claim_C6_witness :
    2 ≤ fiveTextFiles.length
  ∧ ((mergeAsText false (some 2) fiveTextFiles).output =
      (mergeAsText false none (fiveTextFiles.take 2)).output
    ∧ (mergeAsText false (some 2) fiveTextFiles).newErrors =
        (mergeAsText false none (fiveTextFiles.take 2)).newErrors) :=
  ⟨by decide, claim_C6_text_cancellation false fiveTextFiles 2 (by decide)⟩

/-- C6 counterexample to the outcome conjunct of the claim as stated:
a TXT run whose flag is set after 2 of 5 files never reports the
Cancelled outcome — the worker records the critical `AttributeError`
from the strategy-table literal, emits no status report at all, and
never even invokes `merge_as_text`. -/
theorem claim_C6_counterexample :
    (processFiles "TXT" false false (some 2) fiveTextFiles).statusReport =
      none
  ∧ (processFiles "TXT" false false (some 2) fiveTextFiles).statusReport ≠
      some RunStatus.cancelled
  ∧ (processFiles "TXT" false false (some 2) fiveTextFiles).ranStrategy =
      none
  ∧ (processFiles "TXT" false false (some 2) fiveTextFiles).newErrors =
      [criticalErrorMsg strategyTableExcMsg] :=
  ⟨rfl, by decide, rfl, rfl⟩

/-- C8: an unreadable file is not fatal to the Text strategy: its error
message is appended to the error list, a `# `-prefixed placeholder line
is written in the file's place, and the remaining files are processed
normally. -/
theorem claim_C8_read_failure_not_fatal (headers : Bool)
    (pre post : List InputFile) (f : InputFile) (e : String)
    (hf : f.textRead = Except.error e) :
    (mergeAsText headers none (pre ++ f :: post)).output =
      (mergeAsText headers none pre).output ++
      ((if headers then textHeader f.path else "") ++
        ("# " ++ (readErrorMsg f.path e ++ "\n"))) ++
      (mergeAsText headers none post).output
  ∧ (mergeAsText headers none (pre ++ f :: post)).newErrors =
      (mergeAsText headers none pre).newErrors ++
      readErrorMsg f.path e :: (mergeAsText headers none post).newErrors := by
  unfold mergeAsText
  simp only [mergeAsTextGo_none headers]
  have hpiece : textPiece headers f =
      ((if headers then textHeader f.path else "") ++
        ("# " ++ (readErrorMsg f.path e ++ "\n")),
       [readErrorMsg f.path e]) := by
    unfold textPiece
    rw [hf]
    simp [String.append_assoc]
  simp [List.map_append, List.join_append, concatStrings_append,
    concatStrings, hpiece, String.append_assoc]

/-- An unreadable file between two readable ones. -/
def brokenMiddleFile : InputFile :=
  ⟨"mid.txt", .error "Permission denied", .ok [], .converted [], .ok [],
    .ok []⟩

theorem claim_C8_witness :
    brokenMiddleFile.textRead = Except.error "Permission denied"
  ∧ ((mergeAsText false none
        ([mkTextInput "a" "A"] ++ brokenMiddleFile :: [mkTextInput "b" "B"])).output =
      (mergeAsText false none [mkTextInput "a" "A"]).output ++
      ((if false then textHeader brokenMiddleFile.path else "") ++
        ("# " ++ (readErrorMsg brokenMiddleFile.path "Permission denied" ++ "\n"))) ++
      (mergeAsText false none [mkTextInput "b" "B"]).output
    ∧ (mergeAsText false none
        ([mkTextInput "a" "A"] ++ brokenMiddleFile :: [mkTextInput "b" "B"])).newErrors =
      (mergeAsText false none [mkTextInput "a" "A"]).newErrors ++
      readErrorMsg brokenMiddleFile.path "Permission denied" ::
        (mergeAsText false none [mkTextInput "b" "B"]).newErrors) :=
  ⟨rfl, claim_C8_read_failure_not_fatal false [mkTextInput "a" "A"]
    [mkTextInput "b" "B"] brokenMiddleFile "Permission denied" rfl⟩

/-! ## Cancellation in the DOCX and PPTX strategies (claim C10). -/

/-- When the flag becomes set strictly inside the loop's index range,
the DOCX loop reports an early return. -/
theorem docxGo_early (headers : Bool) (k : Nat) :
    ∀ (files : List InputFile) (i : Nat),
      k < i + files.length → i ≤ k →
      (docxGo headers (some k) i files).2.2 = true
  | [], i, h1, h2 => by simp at h1; omega
  | f :: rest, i, h1, h2 => by
    by_cases hk : k ≤ i
    · have hobs : cancelObserved (some k) i = true := by
        simp [cancelObserved, hk]
      simp [docxGo, hobs]
    · have hobs : cancelObserved (some k) i = false := by
        simp [cancelObserved]
        omega
      have ih := docxGo_early headers k rest (i + 1)
        (by simp at h1 ⊢; omega) (by omega)
      simp only [docxGo, hobs, Bool.false_eq_true, if_false]
      split
      · cases f.docxRead <;> simp [ih]
      · simp [ih]

/-- Likewise for the PPTX loop. -/
theorem pptxGo_early (k : Nat) :
    ∀ (files : List InputFile) (i : Nat),
      k < i + files.length → i ≤ k →
      (pptxGo (some k) i files).2.2 = true
  | [], i, h1, h2 => by simp at h1; omega
  | f :: rest, i, h1, h2 => by
    by_cases hk : k ≤ i
    · have hobs : cancelObserved (some k) i = true := by
        simp [cancelObserved, hk]
      simp [pptxGo, hobs]
    · have hobs : cancelObserved (some k) i = false := by
        simp [cancelObserved]
        omega
      have ih := pptxGo_early k rest (i + 1)
        (by simp at h1 ⊢; omega) (by omega)
      simp only [pptxGo, hobs, Bool.false_eq_true, if_false]
      split
      · cases f.pptxRead <;> simp [ih]
      · simp [ih]

/-- C10: when the cancellation flag is observed at some file iteration,
`merge_as_docx` and `merge_as_pptx` return before their final `save`
call, so neither output file is ever written. -/
theorem claim_C10_cancel_skips_save (headers : Bool)
    (cancelAt : Option Nat) (files : List InputFile)
    (h : ∃ i, i < files.length ∧ cancelObserved cancelAt i = true) :
    (mergeAsDocx headers cancelAt files).saved = none
  ∧ (mergeAsPptx cancelAt files).saved = none := by
  obtain ⟨i, hi, hobs⟩ := h
  cases cancelAt with
  | none => simp [cancelObserved] at hobs
  | some k =>
    simp only [cancelObserved, decide_eq_true_eq] at hobs
    have h1 : k < 0 + files.length := by omega
    have h2 : (0 : Nat) ≤ k := Nat.zero_le k
    constructor
    · have he := docxGo_early headers k files 0 h1 h2
      simp [mergeAsDocx, he]
    · have he := pptxGo_early k files 0 h1 h2
      simp [mergeAsPptx, he]

/-- Two DOCX-extension inputs for the cancellation scenario. -/
def twoDocxFiles : List InputFile :=
  [⟨"a.docx", .ok "", .ok [], .converted [], .ok ["pa"], .ok []⟩,
   ⟨"b.docx", .ok "", .ok [], .converted [], .ok ["pb"], .ok []⟩]

theorem claim_C10_witness :
    (∃ i, i < twoDocxFiles.length ∧ cancelObserved (some 1) i = true)
  ∧ ((mergeAsDocx true (some 1) twoDocxFiles).saved = none
    ∧ (mergeAsPptx (some 1) twoDocxFiles).saved = none) :=
  ⟨⟨1, by decide, by decide⟩,
   claim_C10_cancel_skips_save true (some 1) twoDocxFiles
     ⟨1, by decide, by decide⟩⟩

/-! ## The PDF strategy with the office service absent (claim C7). -/

/-- C7 (amended): with no office conversion service, `merge_as_pdf`'s
body fed one `.pdf` file (readable, with some pages) and one `.docx`
file appends only the PDF's pages, records exactly one skip error
naming the `.docx` file, pops the office warning, and writes the
output — it continues rather than aborting.  No conjunct about a
Completed outcome: the `"Finished. ..."` report of `merge_documents`
line 58 is unreachable (see `claim_C7_counterexample`). -/
theorem claim_C7_pdf_office_absent (f1 f2 : InputFile)
    (pages : List String)
    (h1 : strEndsWith (strToLower f1.path) ".pdf" = true)
    (h2 : f1.pdfRead = Except.ok pages)
    (h3 : strEndsWith (strToLower f2.path) ".pdf" = false)
    (h4 : strEndsWith (strToLower f2.path) ".docx" = true) :
    (mergeAsPdf false none [f1, f2]).written = some pages
  ∧ (mergeAsPdf false none [f1, f2]).newErrors =
      ["Skipped unsupported file for PDF merge: " ++ basename f2.path]
  ∧ (mergeAsPdf false none [f1, f2]).warningShown = true := by
  have hloop : pdfGo false none 0 [] [] [f1, f2] =
      PdfLoop.done pages
        ["Skipped unsupported file for PDF merge: " ++ basename f2.path] := by
    simp [pdfGo, cancelObserved, h1, h2, h3]
  have hwarn : endsWithAny (strToLower f2.path)
      [".docx", ".doc", ".pptx", ".ppt"] = true := by
    simp [endsWithAny, h4]
  refine ⟨?_, ?_, ?_⟩ <;>
    simp [mergeAsPdf, hloop, cancelObserved, hwarn]

/-- Concrete inputs for the C7 scenario. -/
def onePdfFile : InputFile :=
  ⟨"doc.pdf", .ok "", .ok ["page1", "page2"], .converted [], .ok [], .ok []⟩

def oneDocxFile : InputFile :=
  ⟨"notes.docx", .ok "", .ok [], .converted [], .ok [], .ok []⟩

theorem claim_C7_witness :
    (strEndsWith (strToLower onePdfFile.path) ".pdf" = true
      ∧ onePdfFile.pdfRead = Except.ok ["page1", "page2"]
      ∧ strEndsWith (strToLower oneDocxFile.path) ".pdf" = false
      ∧ strEndsWith (strToLower oneDocxFile.path) ".docx" = true)
  ∧ ((mergeAsPdf false none [onePdfFile, oneDocxFile]).written =
      some ["page1", "page2"]
    ∧ (mergeAsPdf false none [onePdfFile, oneDocxFile]).newErrors =
        ["Skipped unsupported file for PDF merge: " ++ basename oneDocxFile.path]
    ∧ (mergeAsPdf false none [onePdfFile, oneDocxFile]).warningShown = true) :=
  ⟨⟨by decide, by decide, by decide, by decide⟩,
   claim_C7_pdf_office_absent onePdfFile oneDocxFile ["page1", "page2"]
     (by decide) (by decide) (by decide) (by decide)⟩

/-- C7 counterexample to the outcome conjunct of the claim as stated:
a PDF run over the `.pdf` + `.docx` pair never reports the Completed
outcome — the worker records the critical `AttributeError` from the
strategy-table literal (indeed `merge_as_pdf`, a module-level function,
is not an attribute the dispatcher could call), emits no status report,
and invokes no strategy. -/
theorem claim_C7_counterexample :
    (processFiles "PDF" false false none
        [onePdfFile, oneDocxFile]).statusReport = none
  ∧ (processFiles "PDF" false false none
        [onePdfFile, oneDocxFile]).statusReport ≠
      some (RunStatus.finished 1)
  ∧ (processFiles "PDF" false false none
        [onePdfFile, oneDocxFile]).ranStrategy = none
  ∧ (processFiles "PDF" false false none
        [onePdfFile, oneDocxFile]).newErrors =
      [criticalErrorMsg strategyTableExcMsg] :=
  ⟨rfl, by decide, rfl, rfl⟩

/-! ## Dispatch with an unknown format selector (claim C5). -/

/-- C5: a run whose format selector is not one of the four known
strategies reads no input file and writes no output, has an error
reported, and ends with the Failed outcome (a critical error recorded,
no Completed or Cancelled status).  The error is the `AttributeError`
raised while the `merge_function_map` literal is evaluated (line 46,
`self.merge_as_pdf` not being an attribute of the class), which fires
before the selector is consulted — so the consequent in fact holds for
every selector, and no configuration-error report specific to the
unknown selector exists in the code. -/
theorem claim_C5_unknown_format_failed_run (fmt : String)
    (headers office : Bool) (cancelAt : Option Nat)
    (files : List InputFile) (h : fmt ∉ knownFormats) :
    (processFiles fmt headers office cancelAt files).ranStrategy = none
  ∧ (processFiles fmt headers office cancelAt files).textOut = none
  ∧ (processFiles fmt headers office cancelAt files).pdfOut = none
  ∧ (processFiles fmt headers office cancelAt files).docxOut = none
  ∧ (processFiles fmt headers office cancelAt files).pptxOut = none
  ∧ (processFiles fmt headers office cancelAt files).newErrors =
      [criticalErrorMsg strategyTableExcMsg]
  ∧ failedOutcome (processFiles fmt headers office cancelAt files) :=
  ⟨rfl, rfl, rfl, rfl, rfl, rfl, List.cons_ne_nil _ _, rfl⟩

theorem claim_C5_witness :
    "XML" ∉ knownFormats
  ∧ ((processFiles "XML" true false none twoTextFiles).ranStrategy = none
    ∧ (processFiles "XML" true false none twoTextFiles).textOut = none
    ∧ (processFiles "XML" true false none twoTextFiles).pdfOut = none
    ∧ (processFiles "XML" true false none twoTextFiles).docxOut = none
    ∧ (processFiles "XML" true false none twoTextFiles).pptxOut = none
    ∧ (processFiles "XML" true false none twoTextFiles).newErrors =
        [criticalErrorMsg strategyTableExcMsg]
    ∧ failedOutcome (processFiles "XML" true false none twoTextFiles)) :=
  ⟨by decide,
   claim_C5_unknown_format_failed_run "XML" true false none twoTextFiles
     (by decide)⟩

/-! ## Claim C3: collected paths versus actual file paths.

`populate_file_tree` inserts a root node whose text is
`os.path.basename(root_path)` and attaches everything beneath it, and
`start_consolidation` passes the top-level items (that root node) to
`_collect_included_files`, whose parent walk therefore includes the
root node's text in `path_parts`.  The collected path is then
`os.path.join(root_folder, basename(root_folder), <relative path>)` —
the root folder's basename appears twice, so the result differs from
the file's actual path `os.path.join(root_folder, <relative path>)`. -/

/-- A configuration with no ignores and a `.py` allow-list. -/
def plainPyCfg : ScanConfig :=
  { sessionFolderIgnores := []
    sessionFileIgnores := []
    globalFolderIgnores := []
    globalFileIgnores := []
    extensions := [".py"]
    hideIgnored := false
    showIgnoredSeparately := false }

/-- A root folder containing the single file `a.py`. -/
def singlePyTree : FSEntries := .cons (.file "a.py") .nil

/-- C3 evaluated at the failing input: scanning `/r/proj` containing
one Included file `a.py` and collecting yields `/r/proj/proj/a.py`,
while the file's actual absolute path is `/r/proj/a.py`. -/
theorem claim_C3_collector_duplicates_root_basename :
    collectIncludedFiles "/r/proj"
        (populateTree plainPyCfg "/r/proj" singlePyTree) =
      ["/r/proj/proj/a.py"]
  ∧ pathJoin "/r/proj" ["a.py"] = "/r/proj/a.py"
  ∧ ("/r/proj/proj/a.py" : String) ≠ "/r/proj/a.py" :=
  ⟨by decide, by decide, by decide⟩

/-! ## Claim C9: unparseable session ignore patterns. -/

/-- The outcome of `ast.literal_eval` on the two session pattern texts
(lines 320–321): `none` models the call raising `ValueError` or
`SyntaxError`. -/
structure SessionPatternParse where
  folderPatterns : Option (List String)
  filePatterns : Option (List String)
deriving DecidableEq

/-- Lines 319–324: both parses succeed, or both session lists fall back
to `[]` and the Invalid Patterns warning box is shown (the Boolean). -/
def resolveSessionPatterns (inp : SessionPatternParse) :
    (List String × List String) × Bool :=
  match inp.folderPatterns, inp.filePatterns with
  | some fo, some fi => ((fo, fi), false)
  | _, _ => (([], []), true)

/-- The scan configuration `populate_file_tree` proceeds with, plus
whether the configuration-error warning was reported. -/
def scanConfigOf (globalFolders globalFiles exts : List String)
    (hide sep : Bool) (inp : SessionPatternParse) : ScanConfig × Bool :=
  ({ sessionFolderIgnores := (resolveSessionPatterns inp).1.1
     sessionFileIgnores := (resolveSessionPatterns inp).1.2
     globalFolderIgnores := globalFolders
     globalFileIgnores := globalFiles
     extensions := exts
     hideIgnored := hide
     showIgnoredSeparately := sep },
   (resolveSessionPatterns inp).2)

/-- C9: when either session pattern text fails to parse, the warning is
reported to the caller, both session lists are treated as empty, no
file is ever classified Ignored (Session), folder pruning degenerates
to the global list alone, and the scan still completes — identically
to a scan whose session lists are explicitly empty. -/
theorem claim_C9_invalid_patterns_fallback
    (gF gf exts : List String) (hide sep : Bool)
    (inp : SessionPatternParse) (root : String) (es : FSEntries)
    (h : inp.folderPatterns = none ∨ inp.filePatterns = none) :
    (scanConfigOf gF gf exts hide sep inp).2 = true
  ∧ (scanConfigOf gF gf exts hide sep inp).1.sessionFolderIgnores = []
  ∧ (scanConfigOf gF gf exts hide sep inp).1.sessionFileIgnores = []
  ∧ (∀ name, fileStatus (scanConfigOf gF gf exts hide sep inp).1 name ≠
      FileStatus.ignoredSession)
  ∧ (∀ d, folderPruned (scanConfigOf gF gf exts hide sep inp).1 d =
      matchAny d gF)
  ∧ populateTree (scanConfigOf gF gf exts hide sep inp).1 root es =
      populateTree
        (scanConfigOf gF gf exts hide sep ⟨some [], some []⟩).1 root es := by
  have hres : resolveSessionPatterns inp = (([], []), true) := by
    obtain ⟨fo, fi⟩ := inp
    rcases h with h | h
    · simp only at h
      subst h
      cases fi <;> rfl
    · simp only at h
      subst h
      cases fo <;> rfl
  refine ⟨?_, ?_, ?_, ?_, ?_, ?_⟩
  · simp [scanConfigOf, hres]
  · simp [scanConfigOf, hres]
  · simp [scanConfigOf, hres]
  · intro name
    simp only [scanConfigOf, hres]
    unfold fileStatus
    simp only [matchAny, List.any_nil]
    split
    · simp_all
    · split
      · simp
      · split <;> simp
  · intro d
    simp [scanConfigOf, hres, folderPruned, matchAny]
  · simp only [scanConfigOf, hres]
    rfl

/-- A parse where the folder-pattern text is invalid. -/
def badParse : SessionPatternParse := ⟨none, some ["*.tmp"]⟩

theorem claim_C9_witness :
    (badParse.folderPatterns = none ∨ badParse.filePatterns = none)
  ∧ ((scanConfigOf ["build"] ["*.log"] [".py"] false false badParse).2 = true
    ∧ (scanConfigOf ["build"] ["*.log"] [".py"] false false
        badParse).1.sessionFolderIgnores = []
    ∧ (scanConfigOf ["build"] ["*.log"] [".py"] false false
        badParse).1.sessionFileIgnores = []
    ∧ (∀ name, fileStatus
        (scanConfigOf ["build"] ["*.log"] [".py"] false false badParse).1
          name ≠ FileStatus.ignoredSession)
    ∧ (∀ d, folderPruned
        (scanConfigOf ["build"] ["*.log"] [".py"] false false badParse).1 d =
        matchAny d ["build"])
    ∧ populateTree
        (scanConfigOf ["build"] ["*.log"] [".py"] false false badParse).1
        "/r" FSEntries.nil =
      populateTree
        (scanConfigOf ["build"] ["*.log"] [".py"] false false
          ⟨some [], some []⟩).1 "/r" FSEntries.nil) :=
  ⟨Or.inl rfl,
   claim_C9_invalid_patterns_fallback ["build"] ["*.log"] [".py"]
     false false badParse "/r" FSEntries.nil (Or.inl rfl)⟩

end FileConsolidator
